import Mathlib

/-!
Shallow embedding of the notanusa-dashboard client-side logic.

Sources embedded here:
- the debts/receivables page (DebtsPage: status derivation on submit, overdue
  check, remaining/progress display, outstanding totals, load error handling);
- the analytics page (AnalyticsPage.loadAnalytics: monthly and category rollups);
- the reports page (ReportsPage: generateReport, percentage rendering, CSV export);
- the SQL schema migration (CHECK constraints on debts_receivables).

JavaScript numbers are modelled as `ℚ` for finite values, with an explicit
`JsNum` type (finite / NaN / ±Infinity) wherever the code can divide by zero.
`parseFloat` results are modelled as `Option ℚ` (`none` = NaN, i.e. the input
was empty or did not parse). Dates are modelled by their calendar components;
timestamp comparison (`new Date(a) < new Date(b)`) is modelled as comparison
of day indices.
-/

namespace NotaNusa

/-- Result of a JavaScript floating-point computation that may be non-finite:
a finite rational, NaN, or a signed infinity. -/
inductive JsNum where
  | finite (q : ℚ)
  | nan
  | posInf
  | negInf
deriving DecidableEq

/-- JavaScript division `a / b` on finite operands: `0 / 0` is NaN, `a / 0`
with `a ≠ 0` is a signed infinity, otherwise the exact quotient. -/
def jsDiv (a b : ℚ) : JsNum :=
  if b = 0 then
    (if a = 0 then JsNum.nan else if 0 < a then JsNum.posInf else JsNum.negInf)
  else JsNum.finite (a / b)

/-- JavaScript multiplication by the positive constant 100 (used for
percentages): NaN and infinities are absorbing. -/
def jsMul100 : JsNum → JsNum
  | JsNum.finite q => JsNum.finite (q * 100)
  | JsNum.nan => JsNum.nan
  | JsNum.posInf => JsNum.posInf
  | JsNum.negInf => JsNum.negInf

/-- Whether a `JsNum` is an ordinary finite number. -/
def JsNum.isFinite : JsNum → Bool
  | JsNum.finite _ => true
  | _ => false

/-- Model of `parseFloat(s) || 0` applied to a parse result (`none` = the
field was empty or did not parse, i.e. `parseFloat` returned NaN). NaN and
`0` are both falsy in JavaScript, so both become `0`. -/
def jsOrZero : Option ℚ → ℚ
  | none => 0
  | some q => if q = 0 then 0 else q

/-- JavaScript `a >= b` where either operand may be NaN (`none`); any
comparison with NaN is false. -/
def jsGe (a b : Option ℚ) : Bool :=
  match a, b with
  | some x, some y => decide (y ≤ x)
  | _, _ => false

/-- JavaScript `a > b` where either operand may be NaN (`none`). -/
def jsGt (a b : Option ℚ) : Bool :=
  match a, b with
  | some x, some y => decide (y < x)
  | _, _ => false

/-- Status of a debt/receivable row: 'pending' | 'partial' | 'paid'. -/
inductive DRStatus where
  | pending
  | partialPaid
  | paid
deriving DecidableEq

/-- Kind of a debts_receivables row: 'debt' | 'receivable'. -/
inductive DRType where
  | debt
  | receivable
deriving DecidableEq

/-- Status derivation from DebtsPage.handleSubmit for parsed numeric
amounts: `paid` when `paidAmount >= totalAmount`, else `partial` when
`paidAmount > 0`, else the initial `pending`. -/
def deriveStatus (paidAmount totalAmount : ℚ) : DRStatus :=
  if totalAmount ≤ paidAmount then DRStatus.paid
  else if 0 < paidAmount then DRStatus.partialPaid
  else DRStatus.pending

/-- Status computed by DebtsPage.handleSubmit from the raw form fields:
`paidAmount = parseFloat(formData.paid_amount) || 0` and
`totalAmount = parseFloat(formData.amount)` (which may be NaN), then the
`>=` / `> 0` cascade with JavaScript NaN comparison semantics. -/
def statusFromForm (paidField amountField : Option ℚ) : DRStatus :=
  let paid : ℚ := jsOrZero paidField
  if jsGe (some paid) amountField then DRStatus.paid
  else if jsGt (some paid) (some 0) then DRStatus.partialPaid
  else DRStatus.pending

/-- A stored debts_receivables row, as read back by DebtsPage. Monetary
fields are rationals; `dueDate` is a day index. -/
structure DebtRecord where
  dtype : DRType
  amount : ℚ
  paidAmount : ℚ
  dueDate : Nat
  status : DRStatus
deriving DecidableEq

/-- DebtsPage.isOverdue: `new Date(dueDate) < new Date() && status !== 'paid'`,
with timestamps modelled as day indices. -/
def isOverdue (dueDate today : Nat) (status : DRStatus) : Bool :=
  decide (dueDate < today) && decide (status ≠ DRStatus.paid)

/-- Remaining balance shown per row: `amount - paid_amount`. -/
def remaining (d : DebtRecord) : ℚ :=
  d.amount - d.paidAmount

/-- Progress bar value per row: `(paid_amount / amount) * 100`, computed
with JavaScript division (no zero guard in the source). -/
def progress (d : DebtRecord) : JsNum :=
  jsMul100 (jsDiv d.paidAmount d.amount)

/-- The CHECK constraints on debts_receivables from the schema migration:
`CHECK (amount >= 0)` and `CHECK (paid_amount >= 0)`. -/
def debtsRowCheck (amount paidAmount : ℚ) : Bool :=
  decide (0 ≤ amount) && decide (0 ≤ paidAmount)

/-- Total Outstanding Debt: `debts.reduce((sum, d) => sum + amount - paid_amount, 0)`
over the rows with type 'debt'. -/
def totalDebt (items : List DebtRecord) : ℚ :=
  (items.filter (fun i => decide (i.dtype = DRType.debt))).foldl
    (fun sum d => sum + d.amount - d.paidAmount) 0

/-- Total Outstanding Receivables: the same reduction over rows with type
'receivable'. -/
def totalReceivable (items : List DebtRecord) : ℚ :=
  (items.filter (fun i => decide (i.dtype = DRType.receivable))).foldl
    (fun sum d => sum + d.amount - d.paidAmount) 0

/-- DebtsPage.loadItems as a pure state transition: on success the items
state becomes the fetched data (`data || []`), on a thrown failure the
catch block only logs and the items state is untouched. Returns the new
items state paired with the console log lines emitted. -/
def loadItemsStep (prev : List DebtRecord)
    (result : Except String (Option (List DebtRecord))) :
    List DebtRecord × List String :=
  match result with
  | Except.ok data => (data.getD [], [])
  | Except.error e => (prev, ["Error loading debts/receivables: " ++ e])

/-- Kind of a transaction: 'income' | 'expense'. -/
inductive TxType where
  | income
  | expense
deriving DecidableEq

/-- Calendar date of a transaction (`transaction_date`), by components.
The month is the human calendar month 1..12 (the source computes it as
`date.getMonth() + 1`). -/
structure TxDate where
  year : Nat
  month : Nat
  day : Nat
deriving DecidableEq

/-- A transaction row as fetched by the analytics and reports pages, with
the joined category name (`categories(name)`); `none` models a null join
(no category linked). -/
structure Tx where
  ttype : TxType
  amount : ℚ
  txDate : TxDate
  categoryName : Option String
deriving DecidableEq

/-- TransactionsPage.loadTransactions as a pure state transition, same
shape as `loadItemsStep`: success replaces the list with `data || []`,
a thrown failure is only logged and leaves the list untouched. -/
def loadTransactionsStep (prev : List Tx)
    (result : Except String (Option (List Tx))) : List Tx × List String :=
  match result with
  | Except.ok data => (data.getD [], [])
  | Except.error e => (prev, ["Error loading transactions: " ++ e])

/-- Resolved category name used by both rollups:
`t.categories?.name || 'Uncategorized'`. A missing join and an empty
name string are both falsy in JavaScript, so both fall back. -/
def resolvedCategoryName (t : Tx) : String :=
  match t.categoryName with
  | none => "Uncategorized"
  | some n => if n = "" then "Uncategorized" else n

/-- Model of `String(n).padStart(2, '0')` for the month component. -/
def pad2 (n : Nat) : String :=
  if n < 10 then "0" ++ toString n else toString n

/-- Month key of a transaction date, as built by AnalyticsPage:
the string `getFullYear() + '-' + String(getMonth() + 1).padStart(2, '0')`. -/
def monthKey (d : TxDate) : String :=
  toString d.year ++ "-" ++ pad2 d.month

/-- Running totals for one month key in `monthlyMap`. -/
structure MonthAgg where
  income : ℚ
  expense : ℚ
deriving DecidableEq

/-- One step of the monthly accumulation: add the transaction's amount to
the income total when `t.type === 'income'`, otherwise to the expense
total. -/
def addTxToMonth (agg : MonthAgg) (t : Tx) : MonthAgg :=
  if t.ttype = TxType.income then { agg with income := agg.income + t.amount }
  else { agg with expense := agg.expense + t.amount }

/-- Insertion into the JavaScript `Map` keyed by month key, modelled as an
association list in insertion order: an existing key is updated in place,
a new key is appended at the end (JavaScript `Map` iteration order). -/
def upsertMonthly : List (String × MonthAgg) → Tx → List (String × MonthAgg)
  | [], t => [(monthKey t.txDate, addTxToMonth (MonthAgg.mk 0 0) t)]
  | (k, agg) :: rest, t =>
    if k = monthKey t.txDate then (k, addTxToMonth agg t) :: rest
    else (k, agg) :: upsertMonthly rest t

/-- The `monthlyMap` built by AnalyticsPage.loadAnalytics over the fetched
transactions. -/
def monthlyMap (ts : List Tx) : List (String × MonthAgg) :=
  ts.foldl upsertMonthly []

/-- Indonesian-locale short month names, as produced by
`toLocaleDateString('id-ID', { month: 'short' })`. -/
def idMonthShort : Nat → String
  | 1 => "Jan"
  | 2 => "Feb"
  | 3 => "Mar"
  | 4 => "Apr"
  | 5 => "Mei"
  | 6 => "Jun"
  | 7 => "Jul"
  | 8 => "Agu"
  | 9 => "Sep"
  | 10 => "Okt"
  | 11 => "Nov"
  | 12 => "Des"
  | _ => ""

/-- Split a character list at the first '-', returning the parts before
and after it. -/
def splitDash : List Char → List Char × List Char
  | [] => ([], [])
  | c :: cs =>
    if c = '-' then ([], cs)
    else
      let p := splitDash cs
      (c :: p.1, p.2)

/-- Decimal digits to a natural number. -/
def digitsToNat (cs : List Char) : Nat :=
  cs.foldl (fun n c => n * 10 + (c.toNat - 48)) 0

/-- Display label for a month key of shape `YYYY-MM`, modelling
`new Date(month + '-01').toLocaleDateString('id-ID', { month: 'short', year: 'numeric' })`,
which renders e.g. the key `2024-01` as `Jan 2024`. -/
def keyToLabel (k : String) : String :=
  let p := splitDash k.data
  idMonthShort (digitsToNat p.2) ++ " " ++ String.mk p.1

/-- One entry of the monthly rollup output: `{ month, income, expense }`
where `month` is the locale label. -/
structure MonthEntry where
  month : String
  income : ℚ
  expense : ℚ
deriving DecidableEq

/-- Lexicographic comparison of strings by Unicode code points, modelling
`a.localeCompare(b) <= 0`; on the ASCII month labels involved the
Indonesian collation and the code-point order agree. -/
def lexLe : List Char → List Char → Bool
  | [], _ => true
  | _ :: _, [] => false
  | c :: cs, d :: ds => if c = d then lexLe cs ds else decide (c < d)

/-- Sort relation used on the monthly array: ascending in the localized
month label string (the comparator `a.month.localeCompare(b.month)`). -/
def monthEntryLe (a b : MonthEntry) : Prop :=
  lexLe a.month.data b.month.data = true

instance : DecidableRel monthEntryLe :=
  fun a b => instDecidableEqBool (lexLe a.month.data b.month.data) true

/-- The `monthlyArray` computed by AnalyticsPage.loadAnalytics: map the
month map to labelled entries, then sort by the label string (a stable
sort, as JavaScript `Array.prototype.sort` is). -/
def monthlyArray (ts : List Tx) : List MonthEntry :=
  List.insertionSort monthEntryLe
    ((monthlyMap ts).map (fun kv => MonthEntry.mk (keyToLabel kv.1) kv.2.income kv.2.expense))

/-- Running total for one resolved category name, as kept in the
`categoryMap` of AnalyticsPage (fields `value`/`type`) and equally in the
`categoryMap` of ReportsPage (fields `total`/`type`): the summed amount and
the type of the first-seen transaction of the group. -/
structure CatAgg where
  value : ℚ
  ctype : TxType
deriving DecidableEq

/-- Insertion into the category `Map` keyed by resolved category name:
an existing entry gets the amount added (type kept from first sight), a
new name is appended with the transaction's amount and type. This is the
shared shape of the `forEach` bodies in AnalyticsPage.loadAnalytics and
ReportsPage.generateReport. -/
def upsertCategory : List (String × CatAgg) → Tx → List (String × CatAgg)
  | [], t => [(resolvedCategoryName t, CatAgg.mk t.amount t.ttype)]
  | (k, agg) :: rest, t =>
    if k = resolvedCategoryName t then (k, CatAgg.mk (agg.value + t.amount) agg.ctype) :: rest
    else (k, agg) :: upsertCategory rest t

/-- The category map accumulated over the fetched transactions. -/
def categoryMap (ts : List Tx) : List (String × CatAgg) :=
  ts.foldl upsertCategory []

/-- One output entry of the category rollup / report breakdown:
`{ name, value, type }` on the analytics page, `{ name, total, type }` on
the reports page (same data, different field name for the sum). -/
structure CatEntry where
  name : String
  value : ℚ
  ctype : TxType
deriving DecidableEq

/-- Sort relation of the category rollup: the comparator
`(a, b) => b.value - a.value`, i.e. non-increasing in the summed amount. -/
def catEntryGe (a b : CatEntry) : Prop :=
  b.value ≤ a.value

instance : DecidableRel catEntryGe :=
  fun a b => inferInstanceAs (Decidable (b.value ≤ a.value))

instance : IsTotal CatEntry catEntryGe :=
  ⟨fun a b => le_total b.value a.value⟩

instance : IsTrans CatEntry catEntryGe :=
  ⟨fun _ _ _ h1 h2 => le_trans h2 h1⟩

/-- The `categoryArray` computed by AnalyticsPage.loadAnalytics: entries of
the category map, sorted descending by value (stable sort), truncated with
`slice(0, 10)`. -/
def categoryArray (ts : List Tx) : List CatEntry :=
  (List.insertionSort catEntryGe
    ((categoryMap ts).map (fun kv => CatEntry.mk kv.1 kv.2.value kv.2.ctype))).take 10

/-- The report state assembled by ReportsPage.generateReport. -/
structure Report where
  totalIncome : ℚ
  totalExpense : ℚ
  profitLoss : ℚ
  transactionCount : Nat
  categoryBreakdown : List CatEntry
deriving DecidableEq

/-- ReportsPage.generateReport over the fetched transactions of the period:
income and expense totals by filtered reduction, profit/loss as their
difference, the transaction count, and the category breakdown (same
grouping as the analytics rollup, sorted descending by total, not
truncated). -/
def generateReport (ts : List Tx) : Report :=
  let income :=
    (ts.filter (fun t => decide (t.ttype = TxType.income))).foldl (fun sum t => sum + t.amount) 0
  let expense :=
    (ts.filter (fun t => decide (t.ttype = TxType.expense))).foldl (fun sum t => sum + t.amount) 0
  Report.mk income expense (income - expense) ts.length
    (List.insertionSort catEntryGe
      ((categoryMap ts).map (fun kv => CatEntry.mk kv.1 kv.2.value kv.2.ctype)))

/-- The total of the entry's own type, as selected in the ReportsPage
percentage render: `totalIncome` for income entries, `totalExpense`
otherwise. -/
def typeTotal (e : CatEntry) (r : Report) : ℚ :=
  if e.ctype = TxType.income then r.totalIncome else r.totalExpense

/-- Percentage shown per breakdown entry:
`(item.total / typeTotal) * 100` with JavaScript division (no zero guard
in the source). -/
def percentage (e : CatEntry) (r : Report) : JsNum :=
  jsMul100 (jsDiv e.value (typeTotal e r))

/-- JavaScript number-to-string coercion as used in the CSV template
literals, exact for the integral values exercised here: an integer prints
with no decimal point. -/
def jsNumToString (q : ℚ) : String :=
  if q.den = 1 then toString q.num else toString q

/-- The literal type strings of a transaction. -/
def typeString : TxType → String
  | TxType.income => "income"
  | TxType.expense => "expense"

/-- One CSV data row built by ReportsPage.exportToCSV:
`[item.name, item.type, item.total].join(',')` — plain comma join, no
quoting or escaping. -/
def csvRow (e : CatEntry) : String :=
  String.intercalate "," [e.name, typeString e.ctype, jsNumToString e.value]

/-- The array of lines assembled by ReportsPage.exportToCSV before
`join('\n')`: a title line, a blank line, the four summary lines, a blank
line, the header row, then one row per breakdown entry. -/
def csvLines (r : Report) (startDate endDate : String) : List String :=
  ["Financial Report (" ++ startDate ++ " to " ++ endDate ++ ")",
   "",
   "Total Income," ++ jsNumToString r.totalIncome,
   "Total Expense," ++ jsNumToString r.totalExpense,
   "Profit/Loss," ++ jsNumToString r.profitLoss,
   "Total Transactions," ++ toString r.transactionCount,
   "",
   String.intercalate "," ["Category", "Type", "Amount"]]
  ++ r.categoryBreakdown.map csvRow

/-- The CSV file content: the lines joined with newlines. -/
def csvContent (r : Report) (startDate endDate : String) : String :=
  String.intercalate "\n" (csvLines r startDate endDate)

/-- The download filename set by ReportsPage.exportToCSV. -/
def csvFilename (startDate endDate : String) : String :=
  "financial-report-" ++ startDate ++ "-" ++ endDate ++ ".csv"

/-- Modelled from the spec's words for comparison in claim C7: the content
the claim describes, starting directly with the summary lines (no title
line and no leading blank line). -/
def claimedCsvLines (r : Report) : List String :=
  ["Total Income," ++ jsNumToString r.totalIncome,
   "Total Expense," ++ jsNumToString r.totalExpense,
   "Profit/Loss," ++ jsNumToString r.profitLoss,
   "Total Transactions," ++ toString r.transactionCount,
   "",
   "Category,Type,Amount"]
  ++ r.categoryBreakdown.map csvRow

/-- The claim's version of the CSV content, joined with newlines. -/
def claimedCsvContent (r : Report) : String :=
  String.intercalate "\n" (claimedCsvLines r)

/-- Effect of one transaction on an optional existing group. -/
def bumpCat (t : Tx) : Option CatAgg → CatAgg
  | none => CatAgg.mk t.amount t.ttype
  | some a => CatAgg.mk (a.value + t.amount) a.ctype

/-- Entry stored under key `k` in the association-list model of the
category `Map`. -/
def entryFor (m : List (String × CatAgg)) (k : String) : Option CatAgg :=
  (m.find? (fun kv => decide (kv.1 = k))).map Prod.snd

/-- Sum of the amounts of the transactions whose resolved category name
is `k`. -/
def sumFor (ts : List Tx) (k : String) : ℚ :=
  ((ts.filter (fun t => decide (resolvedCategoryName t = k))).map Tx.amount).sum

/-- First transaction whose resolved category name is `k`. -/
def firstFor (ts : List Tx) (k : String) : Option Tx :=
  ts.find? (fun t => decide (resolvedCategoryName t = k))

/-- The group the category map should hold for key `k` after processing
`ts`: absent when no transaction resolves to `k`, otherwise the summed
amount paired with the first-seen transaction's type. -/
def groupOf (ts : List Tx) (k : String) : Option CatAgg :=
  (firstFor ts k).map (fun t => CatAgg.mk (sumFor ts k) t.ttype)

/-- Keys of the association-list model, in insertion order. -/
def keysOf (m : List (String × CatAgg)) : List String := m.map Prod.fst

/-- The transaction sequence of the spec's monthly-rollup scenario:
income 100 on 2024-01-05, expense 40 on 2024-01-10, income 30 on
2024-02-01. -/
def c3Txs : List Tx :=
  [Tx.mk TxType.income 100 (TxDate.mk 2024 1 5) none,
   Tx.mk TxType.expense 40 (TxDate.mk 2024 1 10) none,
   Tx.mk TxType.income 30 (TxDate.mk 2024 2 1) none]

/-- A concrete category-rollup input: one income transaction of 5 in the
category "Sales". -/
def c4Txs : List Tx :=
  [Tx.mk TxType.income 5 (TxDate.mk 2024 1 1) (some "Sales")]

/-- A period whose only transaction is an income of amount 0 with no
category: the report has zero total income yet an income-typed breakdown
entry. -/
def c5Txs : List Tx :=
  [Tx.mk TxType.income 0 (TxDate.mk 2024 1 1) none]

/-- A concrete report input for the CSV export: one income transaction of
100 in the category "Sales". -/
def c7Txs : List Tx :=
  [Tx.mk TxType.income 100 (TxDate.mk 2024 1 15) (some "Sales")]

/-! Helper lemmas about the folds. -/

lemma foldl_add_sub (l : List DebtRecord) (s : ℚ) :
    l.foldl (fun sum d => sum + d.amount - d.paidAmount) s = s + (l.map remaining).sum := by
  induction l generalizing s with
  | nil => simp
  | cons d l ih =>
    simp only [List.foldl_cons, List.map_cons, List.sum_cons, ih, remaining]; ring

lemma foldl_add_amount (l : List Tx) (s : ℚ) :
    l.foldl (fun sum t => sum + t.amount) s = s + (l.map Tx.amount).sum := by
  induction l generalizing s with
  | nil => simp
  | cons t l ih => simp only [List.foldl_cons, List.map_cons, List.sum_cons, ih]; ring

lemma upsertMonthly_income (m : List (String × MonthAgg)) (t : Tx) :
    ((upsertMonthly m t).map (fun kv => kv.2.income)).sum
      = (m.map (fun kv => kv.2.income)).sum
        + (if t.ttype = TxType.income then t.amount else 0) := by
  induction m with
  | nil =>
    by_cases h : t.ttype = TxType.income <;>
      simp [upsertMonthly, addTxToMonth, h]
  | cons hd rest ih =>
    obtain ⟨k, agg⟩ := hd
    by_cases hk : k = monthKey t.txDate
    · by_cases h : t.ttype = TxType.income <;>
        simp [upsertMonthly, hk, addTxToMonth, h] <;> ring
    · simp only [upsertMonthly, if_neg hk, List.map_cons, List.sum_cons, ih]; ring

lemma upsertMonthly_expense (m : List (String × MonthAgg)) (t : Tx) :
    ((upsertMonthly m t).map (fun kv => kv.2.expense)).sum
      = (m.map (fun kv => kv.2.expense)).sum
        + (if t.ttype = TxType.expense then t.amount else 0) := by
  induction m with
  | nil =>
    cases h : t.ttype <;>
      simp [upsertMonthly, addTxToMonth, h]
  | cons hd rest ih =>
    obtain ⟨k, agg⟩ := hd
    by_cases hk : k = monthKey t.txDate
    · cases h : t.ttype <;>
        simp [upsertMonthly, hk, addTxToMonth, h] <;> ring
    · simp only [upsertMonthly, if_neg hk, List.map_cons, List.sum_cons, ih]; ring

lemma monthlyFold_income (ts : List Tx) :
    ∀ m : List (String × MonthAgg),
      ((ts.foldl upsertMonthly m).map (fun kv => kv.2.income)).sum
        = (m.map (fun kv => kv.2.income)).sum
          + ((ts.filter (fun t => decide (t.ttype = TxType.income))).map Tx.amount).sum := by
  induction ts with
  | nil => simp
  | cons t ts ih =>
    intro m
    simp only [List.foldl_cons, ih, upsertMonthly_income, List.filter_cons]
    by_cases h : t.ttype = TxType.income <;> simp [h] <;> ring

lemma monthlyFold_expense (ts : List Tx) :
    ∀ m : List (String × MonthAgg),
      ((ts.foldl upsertMonthly m).map (fun kv => kv.2.expense)).sum
        = (m.map (fun kv => kv.2.expense)).sum
          + ((ts.filter (fun t => decide (t.ttype = TxType.expense))).map Tx.amount).sum := by
  induction ts with
  | nil => simp
  | cons t ts ih =>
    intro m
    simp only [List.foldl_cons, ih, upsertMonthly_expense, List.filter_cons]
    by_cases h : t.ttype = TxType.expense <;> simp [h] <;> ring

lemma monthlyArray_income_sum (ts : List Tx) :
    ((monthlyArray ts).map MonthEntry.income).sum
      = ((ts.filter (fun t => decide (t.ttype = TxType.income))).map Tx.amount).sum := by
  have hperm :
      (monthlyArray ts).Perm
        ((monthlyMap ts).map (fun kv => MonthEntry.mk (keyToLabel kv.1) kv.2.income kv.2.expense)) :=
    List.perm_insertionSort _ _
  have h1 := (hperm.map MonthEntry.income).sum_eq
  rw [monthlyArray] at h1 ⊢
  rw [h1, List.map_map]
  have h2 : (MonthEntry.income ∘ fun kv : String × MonthAgg =>
      MonthEntry.mk (keyToLabel kv.1) kv.2.income kv.2.expense) = fun kv => kv.2.income := rfl
  rw [h2, monthlyMap, monthlyFold_income]
  simp

lemma monthlyArray_expense_sum (ts : List Tx) :
    ((monthlyArray ts).map MonthEntry.expense).sum
      = ((ts.filter (fun t => decide (t.ttype = TxType.expense))).map Tx.amount).sum := by
  have hperm :
      (monthlyArray ts).Perm
        ((monthlyMap ts).map (fun kv => MonthEntry.mk (keyToLabel kv.1) kv.2.income kv.2.expense)) :=
    List.perm_insertionSort _ _
  have h1 := (hperm.map MonthEntry.expense).sum_eq
  rw [monthlyArray] at h1 ⊢
  rw [h1, List.map_map]
  have h2 : (MonthEntry.expense ∘ fun kv : String × MonthAgg =>
      MonthEntry.mk (keyToLabel kv.1) kv.2.income kv.2.expense) = fun kv => kv.2.expense := rfl
  rw [h2, monthlyMap, monthlyFold_expense]
  simp

/-! Characterisation of the category map as a grouping of the input. -/

lemma entryFor_nil (k : String) : entryFor [] k = none := rfl

lemma entryFor_cons (k₀ : String) (a₀ : CatAgg) (rest : List (String × CatAgg)) (k : String) :
    entryFor ((k₀, a₀) :: rest) k = if k₀ = k then some a₀ else entryFor rest k := by
  by_cases h : k₀ = k
  · rw [entryFor, List.find?_cons_of_pos _ (by simp [h]), if_pos h]
    rfl
  · rw [entryFor, List.find?_cons_of_neg _ (by simp [h]), if_neg h]
    rfl

lemma entryFor_upsert (m : List (String × CatAgg)) (t : Tx) (k : String) :
    entryFor (upsertCategory m t) k
      = if k = resolvedCategoryName t then some (bumpCat t (entryFor m k))
        else entryFor m k := by
  induction m with
  | nil =>
    by_cases hk : k = resolvedCategoryName t
    · subst hk
      simp [upsertCategory, entryFor_nil, entryFor_cons, bumpCat]
    · have hk' : ¬ resolvedCategoryName t = k := fun h => hk h.symm
      simp [upsertCategory, entryFor_nil, entryFor_cons, hk, hk']
  | cons hd rest ih =>
    obtain ⟨k₀, agg⟩ := hd
    by_cases hk₀ : k₀ = resolvedCategoryName t
    · by_cases hk : k = resolvedCategoryName t
      · have hk₀k : k₀ = k := by rw [hk₀, hk]
        subst hk₀k
        simp [upsertCategory, hk₀, entryFor_cons, bumpCat, hk]
      · have hk₀k : ¬ k₀ = k := fun h => hk (by rw [← h, hk₀])
        have hk2 : ¬ resolvedCategoryName t = k := fun h => hk h.symm
        simp [upsertCategory, hk₀, entryFor_cons, hk₀k, hk, hk2]
    · by_cases hk₀k : k₀ = k
      · subst hk₀k
        have hk : ¬ k₀ = resolvedCategoryName t := hk₀
        simp [upsertCategory, hk₀, entryFor_cons, hk]
      · simp [upsertCategory, hk₀, entryFor_cons, hk₀k, ih]

lemma sumFor_concat (h : List Tx) (t : Tx) (k : String) :
    sumFor (h ++ [t]) k
      = sumFor h k + (if resolvedCategoryName t = k then t.amount else 0) := by
  by_cases ht : resolvedCategoryName t = k <;>
    simp [sumFor, List.filter_append, ht]

lemma sumFor_eq_zero_of_none (h : List Tx) (k : String)
    (hnone : firstFor h k = none) : sumFor h k = 0 := by
  have hall := List.find?_eq_none.mp hnone
  have : h.filter (fun t => decide (resolvedCategoryName t = k)) = [] := by
    rw [List.filter_eq_nil_iff]
    exact hall
  simp [sumFor, this]

lemma groupOf_concat (h : List Tx) (t : Tx) (k : String) :
    groupOf (h ++ [t]) k
      = if k = resolvedCategoryName t then some (bumpCat t (groupOf h k))
        else groupOf h k := by
  by_cases hk : k = resolvedCategoryName t
  · subst hk
    rw [if_pos rfl]
    cases hfirst : firstFor h (resolvedCategoryName t) with
    | none =>
      have hzero := sumFor_eq_zero_of_none h (resolvedCategoryName t) hfirst
      have hft : firstFor (h ++ [t]) (resolvedCategoryName t) = some t := by
        rw [firstFor, List.find?_append]
        rw [firstFor] at hfirst
        rw [hfirst, Option.none_or]
        simp [List.find?]
      rw [groupOf, hft, groupOf, hfirst]
      simp only [Option.map_some', Option.map_none', sumFor_concat, hzero, bumpCat]
      simp
    | some t₀ =>
      have hft : firstFor (h ++ [t]) (resolvedCategoryName t) = some t₀ := by
        rw [firstFor, List.find?_append]
        rw [firstFor] at hfirst
        rw [hfirst]
        rfl
      rw [groupOf, hft, groupOf, hfirst]
      simp only [Option.map_some', sumFor_concat, bumpCat]
      simp
  · rw [if_neg hk]
    have hk' : ¬ resolvedCategoryName t = k := fun h' => hk h'.symm
    have hft : firstFor (h ++ [t]) k = firstFor h k := by
      rw [firstFor, List.find?_append, firstFor]
      cases hf : List.find? (fun t' : Tx => decide (resolvedCategoryName t' = k)) h with
      | none =>
        rw [Option.none_or]
        simp [List.find?, hk']
      | some t₀ => rfl
    have hsum : sumFor (h ++ [t]) k = sumFor h k := by
      rw [sumFor_concat]
      simp [hk']
    rw [groupOf, hft, hsum, groupOf]

lemma entryFor_foldl (ts : List Tx) :
    ∀ (h : List Tx) (m : List (String × CatAgg)),
      (∀ k, entryFor m k = groupOf h k) →
      ∀ k, entryFor (ts.foldl upsertCategory m) k = groupOf (h ++ ts) k := by
  induction ts with
  | nil =>
    intro h m hm k
    simpa using hm k
  | cons t ts ih =>
    intro h m hm k
    have hstep : ∀ k', entryFor (upsertCategory m t) k' = groupOf (h ++ [t]) k' := by
      intro k'
      rw [entryFor_upsert, groupOf_concat, hm k']
    have hres := ih (h ++ [t]) (upsertCategory m t) hstep k
    rw [List.foldl_cons]
    rw [hres, List.append_assoc]
    rfl

lemma entryFor_categoryMap (ts : List Tx) (k : String) :
    entryFor (categoryMap ts) k = groupOf ts k := by
  have := entryFor_foldl ts [] [] (fun _ => rfl) k
  simpa [categoryMap] using this

lemma keysOf_upsert (m : List (String × CatAgg)) (t : Tx) :
    keysOf (upsertCategory m t)
      = if resolvedCategoryName t ∈ keysOf m then keysOf m
        else keysOf m ++ [resolvedCategoryName t] := by
  induction m with
  | nil => simp [upsertCategory, keysOf]
  | cons hd rest ih =>
    obtain ⟨k₀, agg⟩ := hd
    by_cases hk₀ : k₀ = resolvedCategoryName t
    · subst hk₀
      simp [upsertCategory, keysOf]
    · have hne : ¬ resolvedCategoryName t = k₀ := fun h => hk₀ h.symm
      simp only [upsertCategory, if_neg hk₀, keysOf, List.map_cons] at ih ⊢
      rw [ih]
      by_cases hmem : resolvedCategoryName t ∈ List.map Prod.fst rest
      · rw [if_pos hmem, if_pos (List.mem_cons.mpr (Or.inr hmem))]
      · have hnc : resolvedCategoryName t ∉ k₀ :: List.map Prod.fst rest := by
          intro hc
          rcases List.mem_cons.mp hc with h1 | h2
          · exact hne h1
          · exact hmem h2
        rw [if_neg hmem, if_neg hnc]
        rfl

lemma keys_nodup_upsert (m : List (String × CatAgg)) (t : Tx)
    (h : (keysOf m).Nodup) : (keysOf (upsertCategory m t)).Nodup := by
  rw [keysOf_upsert]
  split
  · exact h
  · rename_i hmem
    refine h.append (List.nodup_singleton _) ?_
    simp [List.disjoint_singleton]
    exact hmem

lemma keys_nodup_foldl (ts : List Tx) :
    ∀ m : List (String × CatAgg),
      (keysOf m).Nodup → (keysOf (ts.foldl upsertCategory m)).Nodup := by
  induction ts with
  | nil => intro m hm; simpa using hm
  | cons t ts ih =>
    intro m hm
    rw [List.foldl_cons]
    exact ih _ (keys_nodup_upsert m t hm)

lemma keys_nodup_categoryMap (ts : List Tx) : (keysOf (categoryMap ts)).Nodup :=
  keys_nodup_foldl ts [] (by simp [keysOf])

lemma entryFor_of_mem (m : List (String × CatAgg)) (k : String) (a : CatAgg)
    (hnd : (keysOf m).Nodup) (hmem : (k, a) ∈ m) : entryFor m k = some a := by
  induction m with
  | nil => simp at hmem
  | cons hd rest ih =>
    obtain ⟨k₀, a₀⟩ := hd
    rcases List.mem_cons.mp hmem with heq | hrest
    · have h1 : k = k₀ ∧ a = a₀ := by
        simpa using heq
      obtain ⟨h1, h2⟩ := h1
      subst h1
      subst h2
      rw [entryFor_cons, if_pos rfl]
    · have hkrest : k ∈ keysOf rest := by
        have hmap := List.mem_map_of_mem Prod.fst hrest
        simpa [keysOf] using hmap
      have hk₀ : ¬ k₀ = k := by
        intro h
        subst h
        simp only [keysOf, List.map_cons, List.nodup_cons] at hnd
        exact hnd.1 hkrest
      have hndrest : (keysOf rest).Nodup := by
        simp only [keysOf, List.map_cons, List.nodup_cons] at hnd
        exact hnd.2
      rw [entryFor_cons, if_neg hk₀]
      exact ih hndrest hrest

/-! Evaluation lemmas on the concrete inputs. -/

lemma monthlyArray_c3Txs :
    monthlyArray c3Txs = [MonthEntry.mk "Feb 2024" 30 0, MonthEntry.mk "Jan 2024" 100 40] := by
  have hk1 : monthKey (TxDate.mk 2024 1 5) = "2024-01" := rfl
  have hk2 : monthKey (TxDate.mk 2024 1 10) = "2024-01" := rfl
  have hk3 : monthKey (TxDate.mk 2024 2 1) = "2024-02" := rfl
  have hl1 : keyToLabel "2024-01" = "Jan 2024" := rfl
  have hl2 : keyToLabel "2024-02" = "Feb 2024" := rfl
  have hc : lexLe "Jan 2024".data "Feb 2024".data = false := rfl
  simp only [monthlyArray, monthlyMap, c3Txs, List.foldl, upsertMonthly, addTxToMonth,
    hk1, hk2, hk3]
  norm_num
  simp only [upsertMonthly, hl1, hl2, List.map, List.insertionSort, List.orderedInsert,
    monthEntryLe, hc]
  norm_num [MonthEntry.mk.injEq]
  simp

lemma categoryArray_c4Txs :
    categoryArray c4Txs = [CatEntry.mk "Sales" 5 TxType.income] := rfl

lemma generateReport_c5Txs :
    generateReport c5Txs
      = Report.mk 0 0 0 1 [CatEntry.mk "Uncategorized" 0 TxType.income] := by
  have hmap : categoryMap c5Txs = [("Uncategorized", CatAgg.mk 0 TxType.income)] := rfl
  have hfi : c5Txs.filter (fun t => decide (t.ttype = TxType.income)) = c5Txs := rfl
  have hfe : c5Txs.filter (fun t => decide (t.ttype = TxType.expense)) = [] := rfl
  rw [generateReport, hmap, hfi, hfe]
  norm_num [c5Txs, List.insertionSort, List.orderedInsert]

lemma generateReport_c7Txs :
    generateReport c7Txs
      = Report.mk 100 0 100 1 [CatEntry.mk "Sales" 100 TxType.income] := by
  have hmap : categoryMap c7Txs = [("Sales", CatAgg.mk 100 TxType.income)] := rfl
  have hfi : c7Txs.filter (fun t => decide (t.ttype = TxType.income)) = c7Txs := rfl
  have hfe : c7Txs.filter (fun t => decide (t.ttype = TxType.expense)) = [] := rfl
  rw [generateReport, hmap, hfi, hfe]
  norm_num [c7Txs, List.insertionSort, List.orderedInsert]

/-! The claims. -/

/-- Claim C1 (counterexample): at `amount = 0`, `paid_amount = 0` — both
admitted by the schema's CHECK constraints — the submit handler derives
status `paid`, so the claimed biconditional `status == pending ⟺
paid_amount == 0` fails at this boundary case. -/
theorem c1_status_cex :
    deriveStatus 0 0 = DRStatus.paid
    ∧ ¬ (deriveStatus 0 0 = DRStatus.pending ↔ (0:ℚ) = 0) := by
  have h : deriveStatus 0 0 = DRStatus.paid := by simp [deriveStatus]
  refine ⟨h, fun hiff => ?_⟩
  have hp := hiff.mpr rfl
  rw [h] at hp
  exact DRStatus.noConfusion hp

/-- Claim C1 (amended): for every record written through the debts form
with non-negative paid amount and strictly positive total amount, the
derived status satisfies `paid ⟺ paid_amount ≥ amount`, `partial ⟺
0 < paid_amount < amount`, and `pending ⟺ paid_amount = 0`; when
`amount = 0` the derivation instead yields `paid`. -/
theorem c1_status_biconditionals (p a : ℚ) (hp : 0 ≤ p) (ha : 0 < a) :
    (deriveStatus p a = DRStatus.paid ↔ a ≤ p)
    ∧ (deriveStatus p a = DRStatus.partialPaid ↔ 0 < p ∧ p < a)
    ∧ (deriveStatus p a = DRStatus.pending ↔ p = 0) := by
  rw [deriveStatus]
  split_ifs with h1 h2
  · exact ⟨by simp [h1], by simp [not_lt.mpr h1], by simp [(lt_of_lt_of_le ha h1).ne']⟩
  · exact ⟨by simp [h1], by simp [h2, not_le.mp h1], by simp [h2.ne']⟩
  · have hp0 : p = 0 := le_antisymm (not_lt.mp h2) hp
    exact ⟨by simp [h1], by simp [h2], by simp [hp0]⟩

/-- Claim C1 (witness): at `paid_amount = 0`, `amount = 1000` the
hypotheses hold and the pending biconditional is satisfied. -/
theorem c1_status_biconditionals_witness :
    (0:ℚ) ≤ 0 ∧ (0:ℚ) < 1000
    ∧ (deriveStatus 0 1000 = DRStatus.pending ↔ (0:ℚ) = 0) :=
  ⟨le_refl 0, by norm_num,
    (c1_status_biconditionals 0 1000 (le_refl 0) (by norm_num)).2.2⟩

/-- Claim C2: for every transaction sequence (the empty one included), the
monthly rollup's income totals sum to the total income of the input and
its expense totals sum to the total expense of the input — the rollup is a
lossless partition. -/
theorem c2_monthly_rollup_lossless (ts : List Tx) :
    ((monthlyArray ts).map MonthEntry.income).sum
        = ((ts.filter (fun t => decide (t.ttype = TxType.income))).map Tx.amount).sum
    ∧ ((monthlyArray ts).map MonthEntry.expense).sum
        = ((ts.filter (fun t => decide (t.ttype = TxType.expense))).map Tx.amount).sum :=
  ⟨monthlyArray_income_sum ts, monthlyArray_expense_sum ts⟩

/-- Claim C3 (code bug): on the spec's scenario input the monthly rollup
outputs the February entry before the January entry, because the sort
comparator is applied to the localized label strings ("Feb 2024" sorts
before "Jan 2024" lexicographically), not to the calendar month — the
claimed ascending calendar order [2024-01, 2024-02] does not hold. -/
theorem c3_monthly_order_eval :
    monthlyArray c3Txs = [MonthEntry.mk "Feb 2024" 30 0, MonthEntry.mk "Jan 2024" 100 40]
    ∧ monthlyArray c3Txs
        ≠ [MonthEntry.mk "Jan 2024" 100 40, MonthEntry.mk "Feb 2024" 30 0] := by
  refine ⟨monthlyArray_c3Txs, ?_⟩
  rw [monthlyArray_c3Txs]
  intro hcontra
  have hfield := congrArg (fun l => (l.headD (MonthEntry.mk "" 0 0)).month) hcontra
  simp only [List.headD_cons] at hfield
  exact absurd hfield (by decide)

/-- Claim C4: for every transaction sequence the category rollup returns
at most 10 entries, sorted non-increasing by total; each returned entry's
total is the sum of the amounts of the transactions with that resolved
name (with the "Uncategorized" fallback), and its type is the type of the
first-seen transaction of the group. -/
theorem c4_category_rollup (ts : List Tx) :
    (categoryArray ts).length ≤ 10
    ∧ List.Sorted catEntryGe (categoryArray ts)
    ∧ ∀ e ∈ categoryArray ts,
        e.value = sumFor ts e.name
        ∧ (firstFor ts e.name).map Tx.ttype = some e.ctype := by
  refine ⟨?_, ?_, ?_⟩
  · rw [categoryArray, List.length_take]
    exact min_le_left _ _
  · rw [categoryArray]
    exact List.Pairwise.sublist (List.take_sublist _ _)
      (List.sorted_insertionSort catEntryGe _)
  · intro e he
    rw [categoryArray] at he
    have he2 := (List.take_sublist _ _).subset he
    have he3 := (List.perm_insertionSort catEntryGe _).subset he2
    obtain ⟨kv, hkv, rfl⟩ := List.mem_map.mp he3
    obtain ⟨k, a⟩ := kv
    dsimp only
    have hfind := entryFor_of_mem _ _ _ (keys_nodup_categoryMap ts) hkv
    rw [entryFor_categoryMap, groupOf] at hfind
    cases hf : firstFor ts k with
    | none =>
      rw [hf] at hfind
      simp at hfind
    | some t₀ =>
      rw [hf] at hfind
      simp only [Option.map_some'] at hfind
      have ha := Option.some.inj hfind
      refine ⟨?_, ?_⟩
      · simp [← ha]
      · simp [hf, ← ha]

/-- Claim C4 (witness): on the concrete one-transaction input the "Sales"
entry is in the rollup and satisfies the grouping properties. -/
theorem c4_category_rollup_witness :
    CatEntry.mk "Sales" 5 TxType.income ∈ categoryArray c4Txs
    ∧ (CatEntry.mk "Sales" 5 TxType.income).value = sumFor c4Txs "Sales"
    ∧ (firstFor c4Txs "Sales").map Tx.ttype = some TxType.income := by
  have hmem : CatEntry.mk "Sales" 5 TxType.income ∈ categoryArray c4Txs := by
    rw [categoryArray_c4Txs]
    exact List.mem_singleton.mpr rfl
  have h := (c4_category_rollup c4Txs).2.2 _ hmem
  exact ⟨hmem, h.1, h.2⟩

/-- Claim C5 (counterexample): on a period whose only transaction is an
income of amount 0, the report's income total is 0 and the Uncategorized
breakdown entry's percentage evaluates to `0 / 0 = NaN`, not to the
claimed well-defined 0. -/
theorem c5_percentage_cex :
    CatEntry.mk "Uncategorized" 0 TxType.income ∈ (generateReport c5Txs).categoryBreakdown
    ∧ (generateReport c5Txs).totalIncome = 0
    ∧ percentage (CatEntry.mk "Uncategorized" 0 TxType.income) (generateReport c5Txs)
        = JsNum.nan
    ∧ percentage (CatEntry.mk "Uncategorized" 0 TxType.income) (generateReport c5Txs)
        ≠ JsNum.finite 0 := by
  rw [generateReport_c5Txs]
  refine ⟨List.mem_singleton.mpr rfl, rfl, ?_, ?_⟩
  · simp [percentage, typeTotal, jsDiv, jsMul100]
  · simp [percentage, typeTotal, jsDiv, jsMul100]

/-- Claim C5 (amended): for every breakdown entry of a period report, when
the entry's own-type total is nonzero the percentage is the finite number
`total / typeTotal * 100`; when that total is zero the computation does
not throw but yields a non-finite value — NaN whenever the entry's total
is itself 0 (in particular for a report with zero income) — rather than
the claimed 0. -/
theorem c5_percentage_amended (ts : List Tx) (e : CatEntry)
    (_hmem : e ∈ (generateReport ts).categoryBreakdown) :
    (typeTotal e (generateReport ts) ≠ 0 →
        percentage e (generateReport ts)
          = JsNum.finite (e.value / typeTotal e (generateReport ts) * 100))
    ∧ (typeTotal e (generateReport ts) = 0 →
        (percentage e (generateReport ts)).isFinite = false
        ∧ (e.value = 0 → percentage e (generateReport ts) = JsNum.nan)) := by
  constructor
  · intro h
    simp [percentage, jsDiv, h, jsMul100]
  · intro h
    constructor
    · rw [percentage, jsDiv, if_pos h]
      by_cases hv : e.value = 0
      · simp [hv, jsMul100, JsNum.isFinite]
      · split_ifs <;> simp [jsMul100, JsNum.isFinite]
    · intro hv
      simp [percentage, jsDiv, h, hv, jsMul100]

/-- Claim C5 (witness): the amended statement applied to the zero-income
report and its Uncategorized entry. -/
theorem c5_percentage_amended_witness :
    CatEntry.mk "Uncategorized" 0 TxType.income ∈ (generateReport c5Txs).categoryBreakdown
    ∧ (typeTotal (CatEntry.mk "Uncategorized" 0 TxType.income) (generateReport c5Txs) = 0 →
        (percentage (CatEntry.mk "Uncategorized" 0 TxType.income)
          (generateReport c5Txs)).isFinite = false
        ∧ ((CatEntry.mk "Uncategorized" 0 TxType.income).value = 0 →
            percentage (CatEntry.mk "Uncategorized" 0 TxType.income) (generateReport c5Txs)
              = JsNum.nan)) := by
  have hmem : CatEntry.mk "Uncategorized" 0 TxType.income
      ∈ (generateReport c5Txs).categoryBreakdown := by
    rw [generateReport_c5Txs]
    exact List.mem_singleton.mpr rfl
  exact ⟨hmem, (c5_percentage_amended c5Txs _ hmem).2⟩

/-- Claim C6 (counterexample): the schema's CHECK constraint is
`amount >= 0`, not `amount > 0` — the all-zero row passes the constraint
and its progress computation is `0 / 0 * 100 = NaN`, so the division is
not guaranteed safe by the database constraint. -/
theorem c6_progress_constraint_cex :
    debtsRowCheck 0 0 = true
    ∧ progress (DebtRecord.mk DRType.debt 0 0 0 DRStatus.paid) = JsNum.nan := by
  constructor
  · norm_num [debtsRowCheck]
  · simp [progress, jsDiv, jsMul100]

/-- Claim C6 (amended): for every stored row the page computes
`remaining = amount - paid_amount`, `progress = paid_amount / amount * 100`
(finite and equal to that formula whenever `amount ≠ 0`), and
`overdue = due_date < today AND status ≠ paid`; the database constraint
guarantees only `amount ≥ 0` and `paid_amount ≥ 0`, so `amount = 0` rows
are admitted and there the progress division yields NaN. -/
theorem c6_record_computations (d : DebtRecord) (today : Nat) :
    remaining d = d.amount - d.paidAmount
    ∧ (d.amount ≠ 0 → progress d = JsNum.finite (d.paidAmount / d.amount * 100))
    ∧ (isOverdue d.dueDate today d.status = true
        ↔ d.dueDate < today ∧ d.status ≠ DRStatus.paid)
    ∧ (debtsRowCheck d.amount d.paidAmount = true
        ↔ 0 ≤ d.amount ∧ 0 ≤ d.paidAmount) := by
  refine ⟨rfl, ?_, ?_, ?_⟩
  · intro h
    simp [progress, jsDiv, h, jsMul100]
  · simp [isOverdue]
  · simp [debtsRowCheck]

/-- Claim C6 (witness): a debt of 1000 with 250 paid, due on day 5 with
today being day 10, has remaining 750, progress 25 and is overdue. -/
theorem c6_record_computations_witness :
    remaining (DebtRecord.mk DRType.debt 1000 250 5 DRStatus.partialPaid) = 750
    ∧ progress (DebtRecord.mk DRType.debt 1000 250 5 DRStatus.partialPaid)
        = JsNum.finite 25
    ∧ isOverdue 5 10 DRStatus.partialPaid = true := by
  have h := c6_record_computations (DebtRecord.mk DRType.debt 1000 250 5 DRStatus.partialPaid) 10
  refine ⟨?_, ?_, ?_⟩
  · rw [h.1]
    norm_num
  · rw [h.2.1 (by norm_num)]
    norm_num
  · exact h.2.2.1.mpr ⟨by norm_num, by simp⟩

/-- Claim C7 (counterexample): on a concrete report the exported filename
matches the claimed pattern, but the content is not the claimed
summary-first layout — the file starts with a title line
`Financial Report (<start> to <end>)` and a blank line that the claim
omits. -/
theorem c7_csv_cex :
    csvFilename "2024-01-01" "2024-01-31" = "financial-report-2024-01-01-2024-01-31.csv"
    ∧ csvContent (generateReport c7Txs) "2024-01-01" "2024-01-31"
        ≠ claimedCsvContent (generateReport c7Txs) := by
  refine ⟨rfl, ?_⟩
  rw [generateReport_c7Txs]
  intro h
  exact absurd h (by decide)

/-- Claim C7 (amended): the CSV is named
`financial-report-<start>-<end>.csv` and its lines are a title line
`Financial Report (<start> to <end>)` and a blank line, followed by
exactly the claimed layout: the four summary lines, a blank line, the
header `Category,Type,Amount`, and one unquoted comma-joined
{name, type, total} row per breakdown entry. -/
theorem c7_csv_amended (r : Report) (s e : String) :
    csvFilename s e = "financial-report-" ++ s ++ "-" ++ e ++ ".csv"
    ∧ csvLines r s e
        = ("Financial Report (" ++ s ++ " to " ++ e ++ ")") :: "" :: claimedCsvLines r
    ∧ csvContent r s e = String.intercalate "\n" (csvLines r s e)
    ∧ ∀ item : CatEntry,
        csvRow item = String.intercalate "," [item.name, typeString item.ctype,
          jsNumToString item.value] :=
  ⟨rfl, rfl, rfl, fun _ => rfl⟩

/-- Claim C8: when a background load fails (the fetch throws or the client
returns an error), the catch block only logs — the previously held list
state of the transactions page and of the debts page is returned
unchanged, and the failure does not propagate. -/
theorem c8_load_failure_keeps_state (prevT : List Tx) (prevD : List DebtRecord)
    (e1 e2 : String) :
    (loadTransactionsStep prevT (Except.error e1)).1 = prevT
    ∧ (loadTransactionsStep prevT (Except.error e1)).2 ≠ []
    ∧ (loadItemsStep prevD (Except.error e2)).1 = prevD
    ∧ (loadItemsStep prevD (Except.error e2)).2 ≠ [] := by
  refine ⟨rfl, ?_, rfl, ?_⟩
  · simp [loadTransactionsStep]
  · simp [loadItemsStep]

/-- Claim C9: when the paid-amount field is empty or unparseable
(`parseFloat` yields NaN), the submitted record carries
`paid_amount = 0`, and with any positive total amount the derived status
is `pending`. -/
theorem c9_empty_paid_field (a : ℚ) (ha : 0 < a) :
    jsOrZero none = 0 ∧ statusFromForm none (some a) = DRStatus.pending := by
  refine ⟨rfl, ?_⟩
  rw [statusFromForm]
  simp [jsOrZero, jsGe, jsGt, not_le.mpr ha]

/-- Claim C9 (witness): with total amount 1000 and an empty paid field the
stored paid amount is 0 and the status is pending. -/
theorem c9_empty_paid_field_witness :
    (0:ℚ) < 1000 ∧ jsOrZero none = 0
    ∧ statusFromForm none (some 1000) = DRStatus.pending :=
  ⟨by norm_num, (c9_empty_paid_field 1000 (by norm_num)).1,
    (c9_empty_paid_field 1000 (by norm_num)).2⟩

/-- Claim C10: the Total Outstanding Debt figure is the sum of
`amount - paid_amount` over the debt rows and Total Outstanding
Receivables the same sum over the receivable rows; a fully paid row
contributes 0 and an overpaid row contributes a negative term. -/
theorem c10_outstanding_totals (items : List DebtRecord) :
    totalDebt items
        = ((items.filter (fun i => decide (i.dtype = DRType.debt))).map remaining).sum
    ∧ totalReceivable items
        = ((items.filter (fun i => decide (i.dtype = DRType.receivable))).map remaining).sum
    ∧ (∀ d : DebtRecord, d.paidAmount = d.amount → remaining d = 0)
    ∧ (∀ d : DebtRecord, d.amount < d.paidAmount → remaining d < 0) := by
  refine ⟨?_, ?_, ?_, ?_⟩
  · rw [totalDebt]
    simpa using foldl_add_sub _ 0
  · rw [totalReceivable]
    simpa using foldl_add_sub _ 0
  · intro d h
    simp [remaining, h]
  · intro d h
    exact sub_neg.mpr h

/-- Claim C10 (witness): instantiated at a fully paid debt and an overpaid
debt. -/
theorem c10_outstanding_totals_witness :
    remaining (DebtRecord.mk DRType.debt 100 100 0 DRStatus.paid) = 0
    ∧ remaining (DebtRecord.mk DRType.debt 100 150 0 DRStatus.paid) < 0 := by
  have h := c10_outstanding_totals []
  exact ⟨h.2.2.1 _ (by norm_num), h.2.2.2 _ (by norm_num)⟩

end NotaNusa
